import Mathlib

/-!
Shallow embedding of the GPT command-line partition editor
(src/system/uapp/gpt/gpt.c) and proofs about its workflow operations.

The gpt codec library (gpt/gpt.h, gpt_device_init, gpt_device_sync,
gpt_partition_add, gpt_partition_remove, gpt_device_release) and the block
device layer (mxio_ioctl) are not under src/; their behavior is modelled
from the specification where a claim depends on it.  All control flow of
gpt.c itself (init, commit, dump_partitions, add_partition,
remove_partition, utf16_to_cstring, guid_to_cstring) is translated
directly from the source.

External interactions (reads from stdin, ioctl results, the table the
codec produces, the contents of uninitialized stack memory) are supplied
by an environment record `Env`; each workflow operation returns the trace
of externally visible events it performed, the lines its body printed,
and the table state it held when it returned.
-/

namespace GptTool

/-- Capacity of the partition slot array.  Modelled from the spec: the
constant PARTITIONS_COUNT lives in the gpt codec header, which is not
under src/; the spec describes a fixed-capacity slot array (the GPT
standard capacity is 128 entries). -/
def PARTITIONS_COUNT : Nat := 128

/-- One partition entry, as gpt.c reads it through gpt_partition_t:
a 16-byte type identifier, a 16-byte unique identifier, first and last
block (inclusive, uint64), and a 36-unit 16-bit-encoded name. -/
structure gpt_partition_t where
  ptype : List Nat
  guid : List Nat
  first : Nat
  last : Nat
  name : List Nat
deriving Repr, DecidableEq

/-- The in-memory table handle, as gpt.c reads it through gpt_device_t:
a validity flag and the positional slot array (an empty slot is a NULL
pointer in the C array). -/
structure gpt_device_t where
  valid : Bool
  partitions : List (Option gpt_partition_t)
deriving Repr, DecidableEq

/-- The modulus of uint64 arithmetic. -/
def U64 : Nat := 2 ^ 64

/-- uint64 subtraction a - b (for a, b < 2^64). -/
def u64sub (a b : Nat) : Nat := (a + U64 - b) % U64

/-!  utf16_to_cstring (gpt.c lines 38-47).

The C function walks the source units; for each unit it keeps the low
seven bits (`src[i] & 0x7f`), skips the unit if the result is zero, and
otherwise stores the character through the write pointer.  It never
stores a terminating NUL.  `utf16_write src dst` returns the contents of
the destination buffer after the call, where `dst` is the buffer's
contents before the call. -/

def utf16_write : List Nat → List Nat → List Nat
  | [], dst => dst
  | u :: rest, dst =>
    if u % 128 = 0 then
      utf16_write rest dst
    else
      match dst with
      | [] => []
      | _ :: dtl => u % 128 :: utf16_write rest dtl

/-- The characters utf16_to_cstring actually writes: each unit masked to
its low seven bits, with units whose masked value is zero dropped, in the
original unit order. -/
def keptChars (src : List Nat) : List Nat :=
  (src.map fun u => u % 128).filter fun c => c ≠ 0

/-!  guid_to_cstring (gpt.c lines 49-52). -/

/-- Uppercase hexadecimal digit for a value below 16. -/
def hexDigit (n : Nat) : Char :=
  if n < 10 then Char.ofNat (48 + n) else Char.ofNat (65 + (n - 10))

/-- The two characters of the %02X rendering of one byte. -/
def hexByte (b : Nat) : List Char :=
  [hexDigit (b / 16 % 16), hexDigit (b % 16)]

/-- Hex-format a list of bytes, concatenated. -/
def hexBytes (bs : List Nat) : List Char :=
  bs.flatMap hexByte

/-- Textual GUID rendering exactly as the sprintf in gpt.c orders the
bytes: src[3] src[2] src[1] src[0] - src[5] src[4] - src[7] src[6] -
src[9] src[8] - src[15] src[14] src[13] src[12] src[11] src[10]. -/
def guid_to_cstring (s : List Nat) : List Char :=
  hexBytes [s.getD 3 0, s.getD 2 0, s.getD 1 0, s.getD 0 0]
    ++ [Char.ofNat 45]
    ++ hexBytes [s.getD 5 0, s.getD 4 0]
    ++ [Char.ofNat 45]
    ++ hexBytes [s.getD 7 0, s.getD 6 0]
    ++ [Char.ofNat 45]
    ++ hexBytes [s.getD 9 0, s.getD 8 0]
    ++ [Char.ofNat 45]
    ++ hexBytes [s.getD 15 0, s.getD 14 0, s.getD 13 0, s.getD 12 0,
                 s.getD 11 0, s.getD 10 0]

/-- GUID rendering as the spec describes it: first 4 bytes reversed,
next 2 reversed, next 2 reversed, remaining 8 bytes in original order,
hex with hyphens grouped 4-2-2-2-6.  Written from the spec wording, to
be compared against `guid_to_cstring`, which is written from the
source. -/
def guidSpecRendering (s : List Nat) : List Char :=
  hexBytes [s.getD 3 0, s.getD 2 0, s.getD 1 0, s.getD 0 0]
    ++ [Char.ofNat 45]
    ++ hexBytes [s.getD 5 0, s.getD 4 0]
    ++ [Char.ofNat 45]
    ++ hexBytes [s.getD 7 0, s.getD 6 0]
    ++ [Char.ofNat 45]
    ++ hexBytes [s.getD 8 0, s.getD 9 0]
    ++ [Char.ofNat 45]
    ++ hexBytes [s.getD 10 0, s.getD 11 0, s.getD 12 0, s.getD 13 0,
                 s.getD 14 0, s.getD 15 0]

/-!  The workflow state machine.

Externally visible actions are recorded as events; body output is
recorded as lines.  The environment supplies every value that, in the C
program, comes from outside gpt.c: the byte read at the confirmation
prompt, the success of open and of the two geometry ioctls, the raw
device size and block size, the table gpt_device_init produces, the
codec's addEntry verdict, the memory found at an out-of-bounds slot
read, and the initial contents of remove_partition's uninitialized
stack name buffer. -/

inductive Event where
  | prompt
  | openDev
  | closeDev
  | divideBy (divisor : Nat)
  | codecInit
  | syncWrite (t : gpt_device_t)
  | rereadNotify
  | codecAdd
  | codecRemove (guid : List Nat)
  | oobRead (i : Int)
  | releaseTable
deriving Repr, DecidableEq

inductive Line where
  | noValidGpt
  | tableValid
  | partLine (i : Nat) (nameBuf : List Nat) (first last nblocks : Nat)
      (guid : List Char)
  | totalLine (n : Nat)
  | addLine (nm : List Nat) (offset blocks : Nat)
  | removedLine (n : Int) (nameBuf : List Nat)
  | commitLine
deriving Repr, DecidableEq

structure Env where
  confirmByte : Int
  openOk : Bool
  blocksizeRc : Int
  blocksize : Nat
  sizeRc : Int
  rawSize : Nat
  initRc : Int
  table : gpt_device_t
  addRc : Int
  addedTable : gpt_device_t
  oobEntry : Option gpt_partition_t
  nameBuf : List Nat
deriving Repr, DecidableEq

/-- Result of one workflow operation: the event trace, the lines the
operation body printed, and the table state held when the function
returned (none when init failed and no table was ever produced). -/
structure RunResult where
  trace : List Event
  output : List Line
  finalTable : Option gpt_device_t
deriving Repr, DecidableEq

/-- gpt.c init (lines 54-97): with warn, print the prompt and block on
cgetc; any byte other than newline (10), including a negative read
error, aborts before the device is opened.  Then open the device,
query block size and raw size (closing the fd if either ioctl fails),
divide the raw size by the block size with no zero check, and hand the
quotient to gpt_device_init (closing the fd if that fails). -/
def initPromptTrace (warn : Bool) : List Event :=
  if warn then [Event.prompt] else []

/-- The body of gpt.c init, continued: see `initPromptTrace` for the
events of the optional confirmation prompt. -/
def init (env : Env) (warn : Bool) : Option gpt_device_t × List Event :=
  if warn ∧ env.confirmByte ≠ 10 then (none, initPromptTrace warn)
  else if env.openOk = false then (none, initPromptTrace warn)
  else if env.blocksizeRc < 0 then
    (none, initPromptTrace warn ++ [Event.openDev, Event.closeDev])
  else if env.sizeRc < 0 then
    (none, initPromptTrace warn ++ [Event.openDev, Event.closeDev])
  else if env.initRc < 0 then
    (none, initPromptTrace warn
      ++ [Event.openDev, Event.divideBy env.blocksize, Event.closeDev])
  else
    (some env.table,
     initPromptTrace warn
       ++ [Event.openDev, Event.divideBy env.blocksize, Event.codecInit])

/-- Modelled from the spec: gpt_device_sync (the codec syncTable) is not
under src/.  Per the spec, committing serializes the in-memory table and
materializes default header metadata, so the table a commit leaves
behind is valid. -/
def gpt_device_sync (gpt : gpt_device_t) : gpt_device_t :=
  { gpt with valid := true }

/-- gpt.c commit (lines 99-103): print commit, gpt_device_sync (a device
write), then the fire-and-forget re-read-partition-table ioctl.  The
syncWrite event records the table state being written. -/
def commit (gpt : gpt_device_t) : gpt_device_t × List Event × List Line :=
  (gpt_device_sync gpt, [Event.syncWrite gpt, Event.rereadNotify], [Line.commitLine])

/-- Modelled from the spec: gpt_partition_add (the codec addEntry) is not
under src/.  It returns an int; per the spec any non-zero return leaves
the table unmodified, and on zero the entry is inserted (the resulting
table is drawn from the environment). -/
def gpt_partition_add (env : Env) (gpt : gpt_device_t) : Int × gpt_device_t :=
  if env.addRc = 0 then (0, env.addedTable) else (env.addRc, gpt)

/-- Does this slot hold an entry with the given unique identifier? -/
def guidMatches (g : List Nat) : Option gpt_partition_t → Bool
  | some p => p.guid == g
  | none => false

/-- Modelled from the spec: gpt_partition_remove (the codec removeEntry)
is not under src/.  Removal is identity-keyed: the entry whose unique
identifier matches is cleared and 0 returned; when no entry matches, a
non-zero value is returned and the table is unmodified. -/
def gpt_partition_remove (gpt : gpt_device_t) (g : List Nat) :
    Int × gpt_device_t :=
  if gpt.partitions.any (guidMatches g) then
    (0, { gpt with
          partitions := gpt.partitions.map fun s =>
            if guidMatches g s then none else s })
  else (-1, gpt)

/-- The line dump_partitions prints for occupied slot i: index, the name
buffer after utf16_to_cstring wrote into a zeroed 37-byte buffer, first
and last block, uint64 block count last - first + 1, and the formatted
unique identifier. -/
def renderSlot (i : Nat) (p : gpt_partition_t) : Line :=
  Line.partLine i (utf16_write p.name (List.replicate 37 0)) p.first p.last
    ((u64sub p.last p.first + 1) % U64) (guid_to_cstring p.guid)

/-- The dump loop (gpt.c lines 120-125): walk the slots from index i,
stopping at the first empty slot (the C break), returning the printed
lines and the final value of the loop counter. -/
def dump_loop (i : Nat) : List (Option gpt_partition_t) → List Line × Nat
  | [] => ([], i)
  | none :: _ => ([], i)
  | some p :: rest =>
    let r := dump_loop (i + 1) rest
    (renderSlot i p :: r.1, r.2)

/-- gpt.c dump_partitions (lines 105-130).  On an invalid table it
prints the no-valid-GPT line and returns at once: the release and close
at the end of the function are skipped on that path. -/
def dump_partitions (env : Env) : RunResult :=
  match init env false with
  | (none, tr) => ⟨tr, [], none⟩
  | (some gpt, tr) =>
    if gpt.valid = false then
      ⟨tr, [Line.noValidGpt], some gpt⟩
    else
      let r := dump_loop 0 gpt.partitions
      ⟨tr ++ [Event.releaseTable, Event.closeDev],
       Line.tableValid :: r.1 ++ [Line.totalLine r.2], some gpt⟩

/-- gpt.c add_partition (lines 132-153): init with confirmation; if the
loaded table is invalid, commit first to generate a default header; then
call the codec addEntry and, only when it returns 0, print the add line
and commit again; finally release the table and close the fd. -/
def add_partition (env : Env) (offset blocks : Nat) (nm : List Nat) :
    RunResult :=
  match init env true with
  | (none, tr) => ⟨tr, [], none⟩
  | (some gpt, tr) =>
    let boot : gpt_device_t × List Event × List Line :=
      if gpt.valid = false then
        let c := commit gpt
        (c.1, tr ++ c.2.1, c.2.2)
      else (gpt, tr, [])
    let ar := gpt_partition_add env boot.1
    let tr2 := boot.2.1 ++ [Event.codecAdd]
    if ar.1 = 0 then
      let c2 := commit ar.2
      ⟨tr2 ++ c2.2.1 ++ [Event.releaseTable, Event.closeDev],
       boot.2.2 ++ [Line.addLine nm offset blocks] ++ c2.2.2,
       some c2.1⟩
    else
      ⟨tr2 ++ [Event.releaseTable, Event.closeDev], boot.2.2, some ar.2⟩

/-- gpt.c remove_partition (lines 155-176): init with confirmation; the
only range check is n >= PARTITIONS_COUNT (a negative n is not rejected
and reads gpt->partitions[n] out of bounds, the environment supplying
whatever memory lies there); an empty slot returns at once; otherwise
the codec removeEntry is called with the slot's unique identifier and,
only when it returns 0, the removed line is printed through the
uninitialized stack name buffer and a commit is performed.  The
n >= PARTITIONS_COUNT and empty-slot returns skip the release and close
at the end of the function. -/
def remove_partition (env : Env) (n : Int) : RunResult :=
  match init env true with
  | (none, tr) => ⟨tr, [], none⟩
  | (some gpt, tr) =>
    if (PARTITIONS_COUNT : Int) ≤ n then ⟨tr, [], some gpt⟩
    else
      let pr : Option gpt_partition_t × List Event :=
        if 0 ≤ n then (gpt.partitions.getD n.toNat none, tr)
        else (env.oobEntry, tr ++ [Event.oobRead n])
      match pr.1 with
      | none => ⟨pr.2, [], some gpt⟩
      | some p =>
        let rr := gpt_partition_remove gpt p.guid
        let tr2 := pr.2 ++ [Event.codecRemove p.guid]
        if rr.1 = 0 then
          let c := commit rr.2
          ⟨tr2 ++ c.2.1 ++ [Event.releaseTable, Event.closeDev],
           Line.removedLine n (utf16_write p.name env.nameBuf) :: c.2.2,
           some c.1⟩
        else
          ⟨tr2 ++ [Event.releaseTable, Event.closeDev], [], some rr.2⟩

/-!  Helper predicates over traces. -/

/-- Is this event a device write performed by a commit? -/
def isSyncWrite : Event → Bool
  | Event.syncWrite _ => true
  | _ => false

/-- Number of commit device writes in a trace. -/
def commitCount (tr : List Event) : Nat := (tr.filter isSyncWrite).length

/-- Some occurrence of e₁ comes strictly before some occurrence of e₂. -/
def Precedes (tr : List Event) (e₁ e₂ : Event) : Prop :=
  ∃ pre post, tr = pre ++ e₁ :: post ∧ e₂ ∈ post

/-- The occupied slots before the first empty slot. -/
def occupiedRun : List (Option gpt_partition_t) → List gpt_partition_t
  | some p :: rest => p :: occupiedRun rest
  | _ => []

/-- Render a run of occupied slots starting at index i. -/
def renderFrom (i : Nat) : List gpt_partition_t → List Line
  | [] => []
  | p :: rest => renderSlot i p :: renderFrom (i + 1) rest

/-- All four geometry and codec steps of init succeed. -/
def InitOk (env : Env) : Prop :=
  env.openOk = true ∧ 0 ≤ env.blocksizeRc ∧ 0 ≤ env.sizeRc ∧ 0 ≤ env.initRc

/-!  Supporting lemmas. -/

theorem keptChars_nil : keptChars [] = [] := rfl

theorem keptChars_cons (u : Nat) (rest : List Nat) :
    keptChars (u :: rest) =
      if u % 128 = 0 then keptChars rest else u % 128 :: keptChars rest := by
  by_cases h : u % 128 = 0 <;> simp [keptChars, h]

theorem keptChars_ne_zero (src : List Nat) : ∀ c ∈ keptChars src, c ≠ 0 := by
  intro c hc
  have := List.of_mem_filter hc
  simpa using this

theorem keptChars_lt_128 (src : List Nat) : ∀ c ∈ keptChars src, c < 128 := by
  intro c hc
  have hm : c ∈ src.map fun u => u % 128 := List.mem_of_mem_filter hc
  rcases List.mem_map.mp hm with ⟨u, _, rfl⟩
  exact Nat.mod_lt u (by norm_num)

theorem keptChars_length_le (src : List Nat) :
    (keptChars src).length ≤ src.length := by
  calc (keptChars src).length ≤ (src.map fun u => u % 128).length :=
        List.length_filter_le _ _
    _ = src.length := List.length_map _ _

/-- Closed form of utf16_to_cstring: the buffer after the call holds the
masked non-null characters followed by the untouched tail of the
original buffer contents. -/
theorem utf16_write_spec (src : List Nat) : ∀ dst : List Nat,
    (keptChars src).length ≤ dst.length →
    utf16_write src dst = keptChars src ++ dst.drop (keptChars src).length := by
  induction src with
  | nil => intro dst _; simp [utf16_write, keptChars]
  | cons u rest ih =>
    intro dst h
    rw [keptChars_cons] at h ⊢
    by_cases hu : u % 128 = 0
    · rw [if_pos hu] at h ⊢
      simpa [utf16_write, hu] using ih dst h
    · rw [if_neg hu] at h ⊢
      cases dst with
      | nil => simp at h
      | cons d dtl =>
        have h2 : (keptChars rest).length ≤ dtl.length := by
          simpa using h
        simp only [utf16_write, if_neg hu, ih dtl h2]
        simp

theorem commitCount_nil : commitCount [] = 0 := rfl

theorem commitCount_append (a b : List Event) :
    commitCount (a ++ b) = commitCount a + commitCount b := by
  simp [commitCount, List.filter_append]

theorem commitCount_syncWrite (t : gpt_device_t) (tr : List Event) :
    commitCount (Event.syncWrite t :: tr) = commitCount tr + 1 := by
  simp [commitCount, List.filter_cons, isSyncWrite]

theorem commitCount_prompt (tr : List Event) :
    commitCount (Event.prompt :: tr) = commitCount tr := rfl

theorem commitCount_openDev (tr : List Event) :
    commitCount (Event.openDev :: tr) = commitCount tr := rfl

theorem commitCount_closeDev (tr : List Event) :
    commitCount (Event.closeDev :: tr) = commitCount tr := rfl

theorem commitCount_divideBy (d : Nat) (tr : List Event) :
    commitCount (Event.divideBy d :: tr) = commitCount tr := rfl

theorem commitCount_codecInit (tr : List Event) :
    commitCount (Event.codecInit :: tr) = commitCount tr := rfl

theorem commitCount_rereadNotify (tr : List Event) :
    commitCount (Event.rereadNotify :: tr) = commitCount tr := rfl

theorem commitCount_codecAdd (tr : List Event) :
    commitCount (Event.codecAdd :: tr) = commitCount tr := rfl

theorem commitCount_codecRemove (g : List Nat) (tr : List Event) :
    commitCount (Event.codecRemove g :: tr) = commitCount tr := rfl

theorem commitCount_oobRead (i : Int) (tr : List Event) :
    commitCount (Event.oobRead i :: tr) = commitCount tr := rfl

theorem commitCount_releaseTable (tr : List Event) :
    commitCount (Event.releaseTable :: tr) = commitCount tr := rfl

theorem initPromptTrace_sync_free (warn : Bool) :
    commitCount (initPromptTrace warn) = 0 := by
  cases warn <;> simp [initPromptTrace, commitCount, isSyncWrite]

/-- init performs no commit device write. -/
theorem init_sync_free (env : Env) (warn : Bool) :
    commitCount (init env warn).2 = 0 := by
  unfold init
  repeat' split
  all_goals cases warn <;>
    simp [initPromptTrace, commitCount_append, commitCount, isSyncWrite]

/-- A table returned by init is the table the codec produced. -/
theorem init_table (env : Env) (warn : Bool) (g : gpt_device_t)
    (tr : List Event) (h : init env warn = (some g, tr)) : g = env.table := by
  unfold init at h
  repeat' split at h
  all_goals simp_all

/-- When the prompt is confirmed (or absent) and the open, the two
geometry queries and the codec table load all succeed, init returns the
codec's table with the fully successful trace. -/
theorem init_ok (env : Env) (warn : Bool) (h : InitOk env)
    (hc : warn = true → env.confirmByte = 10) :
    init env warn =
      (some env.table,
       initPromptTrace warn
         ++ [Event.openDev, Event.divideBy env.blocksize, Event.codecInit]) := by
  obtain ⟨h1, h2, h3, h4⟩ := h
  have hb : ¬ env.blocksizeRc < 0 := not_lt.mpr h2
  have hs : ¬ env.sizeRc < 0 := not_lt.mpr h3
  have hi : ¬ env.initRc < 0 := not_lt.mpr h4
  have hw : ¬ (warn = true ∧ env.confirmByte ≠ 10) := by
    rintro ⟨w, ne⟩; exact ne (hc w)
  simp [init, h1, hb, hs, hi, hw]

/-- When the confirmation byte is not newline, init aborts with only the
prompt in its trace. -/
theorem init_declined (env : Env) (h : env.confirmByte ≠ 10) :
    init env true = (none, [Event.prompt]) := by
  simp [init, initPromptTrace, h]

/-- Closed form of the dump loop: it renders exactly the occupied slots
before the first empty slot and leaves the counter at the start index
plus the number of slots rendered. -/
theorem dump_loop_spec (l : List (Option gpt_partition_t)) : ∀ i : Nat,
    dump_loop i l = (renderFrom i (occupiedRun l),
      i + (occupiedRun l).length) := by
  induction l with
  | nil => intro i; simp [dump_loop, occupiedRun, renderFrom]
  | cons s rest ih =>
    intro i
    cases s with
    | none => simp [dump_loop, occupiedRun, renderFrom]
    | some p =>
      simp only [dump_loop, occupiedRun, renderFrom, ih (i + 1)]
      simp [List.length_cons]
      omega

/-- Reading any slot of a table whose slots are all empty yields an
empty slot. -/
theorem getD_none_of_all_none (l : List (Option gpt_partition_t))
    (h : ∀ s ∈ l, s = none) : ∀ i : Nat, l[i]?.getD none = none := by
  induction l with
  | nil => intro i; simp
  | cons s rest ih =>
    intro i
    cases i with
    | zero => simpa using h s (by simp)
    | succ j =>
      simp only [List.getElem?_cons_succ]
      exact ih (fun x hx => h x (by simp [hx])) j

/-- No slot of an all-empty table matches any unique identifier. -/
theorem any_guidMatches_false (l : List (Option gpt_partition_t))
    (h : ∀ s ∈ l, s = none) (g : List Nat) :
    l.any (guidMatches g) = false := by
  rw [List.any_eq_false]
  intro s hs
  rw [h s hs]
  simp [guidMatches]

/-!  Concrete devices and environments used to evaluate the operations
on specific inputs. -/

/-- A sample partition occupying blocks 34-161. -/
def pA : gpt_partition_t :=
  { ptype := List.replicate 16 255,
    guid := [0, 1, 2, 3, 4, 5, 6, 7, 8, 9, 10, 11, 12, 13, 14, 15],
    first := 34, last := 161,
    name := [71, 80, 84] ++ List.replicate 33 0 }

/-- A second sample partition occupying blocks 200-299. -/
def pB : gpt_partition_t :=
  { ptype := List.replicate 16 255,
    guid := List.replicate 16 9,
    first := 200, last := 299,
    name := [68] ++ List.replicate 35 0 }

/-- An environment in which every external step succeeds and the loaded
table is valid and empty. -/
def envBase : Env :=
  { confirmByte := 10, openOk := true, blocksizeRc := 0, blocksize := 512,
    sizeRc := 0, rawSize := 4096000, initRc := 0,
    table := { valid := true,
               partitions := List.replicate PARTITIONS_COUNT none },
    addRc := 0,
    addedTable := { valid := true,
                    partitions := some pA :: List.replicate 127 none },
    oobEntry := none, nameBuf := List.replicate 37 7 }

/-- Loaded table with pA in slot 0 and all other slots empty; the memory
at an out-of-bounds slot read happens to hold a pointer to an entry
whose identifier equals pA's. -/
def envOcc : Env :=
  { envBase with
    table := { valid := true,
               partitions := some pA :: List.replicate 127 none },
    oobEntry := some pA }

/-- Loaded table with occupied slots 0 and 2 and empty slot 1. -/
def envGap : Env :=
  { envBase with
    table := { valid := true,
               partitions := [some pA, none, some pB]
                 ++ List.replicate 125 none } }

/-- Loaded table that is invalid, with every slot empty. -/
def envInvalid : Env :=
  { envBase with
    table := { valid := false,
               partitions := List.replicate PARTITIONS_COUNT none } }

/-!  The claims. -/

/-- C1.  The claim states that every slot index outside
[0, PARTITIONS_COUNT), including every negative index, makes the remove
operation a no-op that performs no removal, no commit and no read
through an invalid index.  The code only checks n >= PARTITIONS_COUNT,
so a negative index reaches gpt->partitions[n]: on this concrete run
with slot index -1, the operation performs the out-of-bounds read, and
with the out-of-bounds memory aliasing an entry whose identifier equals
the slot-0 entry's, it goes on to remove that entry and commit. -/
theorem C1_negative_index_reaches_oob_read :
    Event.oobRead (-1) ∈ (remove_partition envOcc (-1)).trace ∧
    Event.codecRemove pA.guid ∈ (remove_partition envOcc (-1)).trace ∧
    commitCount (remove_partition envOcc (-1)).trace = 1 := by
  refine ⟨?_, ?_, ?_⟩ <;> decide

/-- C3.  The claim states that once init has returned a live handle,
every workflow operation closes the device exactly once and releases
the table before returning, naming dump's invalid-table path and
remove's rejected-index and empty-slot paths.  On precisely those three
paths the code returns early, skipping both close(fd) and
gpt_device_release: the traces contain the open with no close and no
release. -/
theorem C3_early_return_paths_leak_handle :
    (Event.openDev ∈ (dump_partitions envInvalid).trace ∧
      Event.closeDev ∉ (dump_partitions envInvalid).trace ∧
      Event.releaseTable ∉ (dump_partitions envInvalid).trace) ∧
    (Event.openDev ∈ (remove_partition envOcc 130).trace ∧
      Event.closeDev ∉ (remove_partition envOcc 130).trace ∧
      Event.releaseTable ∉ (remove_partition envOcc 130).trace) ∧
    (Event.openDev ∈ (remove_partition envOcc 5).trace ∧
      Event.closeDev ∉ (remove_partition envOcc 5).trace ∧
      Event.releaseTable ∉ (remove_partition envOcc 5).trace) := by
  refine ⟨⟨?_, ?_, ?_⟩, ⟨?_, ?_, ?_⟩, ⟨?_, ?_, ?_⟩⟩ <;> decide

/-- C5 counterexample.  The claim states that dump renders every
occupied slot of a valid table, including occupied slots positioned
after an empty slot.  On a valid table with slots 0 and 2 occupied and
slot 1 empty, the loop breaks at slot 1: the output renders only slot 0
and reports a total of 1, although slot 2 is occupied. -/
theorem C5_slot_after_gap_not_rendered :
    envGap.table.partitions.getD 2 none = some pB ∧
    (dump_partitions envGap).output
      = [Line.tableValid, renderSlot 0 pA, Line.totalLine 1] := by
  refine ⟨?_, ?_⟩ <;> decide

/-- C4.  The claim states that the textual identifier rendering keeps
the last 8 bytes in original order.  The sprintf in gpt.c prints the
fourth group as src[9] src[8] and the fifth as src[15] down to src[10],
both reversed: on the byte sequence 0..15 the code renders
0908-0F0E0D0C0B0A where the spec's byte order renders
0809-0A0B0C0D0E0F. -/
theorem C4_guid_rendering_reverses_last_groups :
    guid_to_cstring [0, 1, 2, 3, 4, 5, 6, 7, 8, 9, 10, 11, 12, 13, 14, 15]
        = String.toList "03020100-0504-0706-0908-0F0E0D0C0B0A" ∧
    guidSpecRendering [0, 1, 2, 3, 4, 5, 6, 7, 8, 9, 10, 11, 12, 13, 14, 15]
        = String.toList "03020100-0504-0706-0809-0A0B0C0D0E0F" ∧
    guid_to_cstring [0, 1, 2, 3, 4, 5, 6, 7, 8, 9, 10, 11, 12, 13, 14, 15]
        ≠ guidSpecRendering
            [0, 1, 2, 3, 4, 5, 6, 7, 8, 9, 10, 11, 12, 13, 14, 15] := by
  refine ⟨?_, ?_, ?_⟩ <;> decide

/-- C5 (amended).  For a valid loaded table, dump renders exactly the
occupied slots of the initial occupied run, stopping at the first empty
slot — each line carrying the index, the name buffer decoded into a
zeroed buffer, the inclusive block range, the uint64 block count and
the formatted unique identifier — followed by a trailing count equal to
the number of slots rendered. -/
theorem C5_dump_renders_occupied_run (env : Env) (h : InitOk env)
    (hv : env.table.valid = true) :
    (dump_partitions env).output =
      Line.tableValid ::
        (renderFrom 0 (occupiedRun env.table.partitions)
          ++ [Line.totalLine (occupiedRun env.table.partitions).length]) := by
  have hin := init_ok env false h (fun hh => absurd hh (by simp))
  simp [dump_partitions, hin, hv, dump_loop_spec]

theorem C5_dump_renders_occupied_run_witness :
    (dump_partitions envGap).output =
      Line.tableValid ::
        (renderFrom 0 (occupiedRun envGap.table.partitions)
          ++ [Line.totalLine (occupiedRun envGap.table.partitions).length]) :=
  C5_dump_renders_occupied_run envGap (by refine ⟨?_, ?_, ?_, ?_⟩ <;> decide)
    (by decide)

/-- C2.  For every remove invocation in which the loaded table's
validity flag is false — such a table has no occupied slots — the
operation aborts silently: no commit device write occurs, the body
prints nothing, and the table held at return is the loaded table,
unchanged, for every slot index. -/
theorem C2_remove_on_invalid_table_silent_noop (env : Env) (n : Int)
    (hv : env.table.valid = false)
    (hemp : ∀ s ∈ env.table.partitions, s = none) :
    commitCount (remove_partition env n).trace = 0 ∧
    (remove_partition env n).output = [] ∧
    ∀ t, (remove_partition env n).finalTable = some t → t = env.table := by
  rcases hin : init env true with ⟨og, tr⟩
  have htr : commitCount tr = 0 := by
    have h0 := init_sync_free env true
    rw [hin] at h0
    exact h0
  cases og with
  | none => simp [remove_partition, hin, htr]
  | some g =>
    have hg := init_table env true g tr hin
    subst hg
    by_cases hge : (PARTITIONS_COUNT : Int) ≤ n
    · simp [remove_partition, hin, hge, htr]
    · by_cases hnn : 0 ≤ n
      · have hget := getD_none_of_all_none env.table.partitions hemp n.toNat
        simp [remove_partition, hin, hge, hnn, hget, htr]
      · cases hoe : env.oobEntry with
        | none =>
          simp [remove_partition, hin, hge, hnn, hoe, htr,
            commitCount_append, commitCount_oobRead, commitCount_nil]
        | some p =>
          have hany := any_guidMatches_false env.table.partitions hemp p.guid
          have hne : (-1 : Int) ≠ 0 := by norm_num
          simp [remove_partition, hin, hge, hnn, hoe, gpt_partition_remove,
            hany, hne, htr, commitCount_append, commitCount_oobRead,
            commitCount_codecRemove, commitCount_releaseTable,
            commitCount_closeDev, commitCount_nil]

theorem C2_remove_on_invalid_table_silent_noop_witness :
    commitCount (remove_partition envInvalid 3).trace = 0 ∧
    (remove_partition envInvalid 3).output = [] ∧
    ∀ t, (remove_partition envInvalid 3).finalTable = some t →
      t = envInvalid.table :=
  C2_remove_on_invalid_table_silent_noop envInvalid 3 (by decide)
    (fun s hs => List.eq_of_mem_replicate hs)

/-- C6.  With init succeeding and the prompt confirmed: when the loaded
table is invalid (and hence empty), a commit of that empty loaded table
— which the sync makes valid — occurs before the codec addEntry call;
the total number of commit device writes is the bootstrap commit plus
one more exactly when addEntry returned 0; and on a non-zero addEntry
return the table held at release is the post-bootstrap table,
unmodified by the add, with no second commit. -/
theorem C6_add_bootstraps_then_commits_iff_added (env : Env)
    (offset blocks : Nat) (nm : List Nat)
    (h : InitOk env) (hc : env.confirmByte = 10)
    (hemp : env.table.valid = false → ∀ s ∈ env.table.partitions, s = none) :
    commitCount (add_partition env offset blocks nm).trace
        = (if env.table.valid = true then 0 else 1)
          + (if env.addRc = 0 then 1 else 0) ∧
    (env.table.valid = false →
      Precedes (add_partition env offset blocks nm).trace
          (Event.syncWrite env.table) Event.codecAdd ∧
      (gpt_device_sync env.table).valid = true ∧
      ∀ s ∈ env.table.partitions, s = none) ∧
    (env.addRc ≠ 0 →
      (add_partition env offset blocks nm).finalTable
        = some (if env.table.valid = true then env.table
                else gpt_device_sync env.table)) := by
  have hin := init_ok env true h (fun _ => hc)
  by_cases hv : env.table.valid = true
  · refine ⟨?_, ?_, ?_⟩
    · by_cases ha : env.addRc = 0 <;>
        simp [add_partition, hin, hv, ha, commit, gpt_partition_add,
          initPromptTrace, commitCount_append, commitCount_prompt,
          commitCount_openDev, commitCount_divideBy, commitCount_codecInit,
          commitCount_codecAdd, commitCount_syncWrite,
          commitCount_rereadNotify, commitCount_releaseTable,
          commitCount_closeDev, commitCount_nil]
    · intro hf
      rw [hf] at hv
      exact Bool.noConfusion hv
    · intro hne
      simp [add_partition, hin, hv, hne, gpt_partition_add]
  · have hvf : env.table.valid = false := by
      revert hv; cases env.table.valid <;> simp
    refine ⟨?_, ?_, ?_⟩
    · by_cases ha : env.addRc = 0 <;>
        simp [add_partition, hin, hvf, ha, commit, gpt_partition_add,
          initPromptTrace, commitCount_append, commitCount_prompt,
          commitCount_openDev, commitCount_divideBy, commitCount_codecInit,
          commitCount_codecAdd, commitCount_syncWrite,
          commitCount_rereadNotify, commitCount_releaseTable,
          commitCount_closeDev, commitCount_nil]
    · intro _
      refine ⟨?_, rfl, hemp hvf⟩
      by_cases ha : env.addRc = 0
      · refine ⟨[Event.prompt, Event.openDev, Event.divideBy env.blocksize,
          Event.codecInit],
          [Event.rereadNotify, Event.codecAdd,
            Event.syncWrite env.addedTable, Event.rereadNotify,
            Event.releaseTable, Event.closeDev], ?_, ?_⟩
        · simp [add_partition, hin, hvf, ha, commit, gpt_partition_add,
            initPromptTrace]
        · simp
      · refine ⟨[Event.prompt, Event.openDev, Event.divideBy env.blocksize,
          Event.codecInit],
          [Event.rereadNotify, Event.codecAdd,
            Event.releaseTable, Event.closeDev], ?_, ?_⟩
        · simp [add_partition, hin, hvf, ha, commit, gpt_partition_add,
            initPromptTrace]
        · simp
    · intro hne
      simp [add_partition, hin, hvf, hne, commit, gpt_partition_add]

theorem C6_add_bootstraps_then_commits_iff_added_witness :
    commitCount (add_partition envInvalid 34 128 [104, 105]).trace
        = (if envInvalid.table.valid = true then 0 else 1)
          + (if envInvalid.addRc = 0 then 1 else 0) ∧
    (envInvalid.table.valid = false →
      Precedes (add_partition envInvalid 34 128 [104, 105]).trace
          (Event.syncWrite envInvalid.table) Event.codecAdd ∧
      (gpt_device_sync envInvalid.table).valid = true ∧
      ∀ s ∈ envInvalid.table.partitions, s = none) ∧
    (envInvalid.addRc ≠ 0 →
      (add_partition envInvalid 34 128 [104, 105]).finalTable
        = some (if envInvalid.table.valid = true then envInvalid.table
                else gpt_device_sync envInvalid.table)) :=
  C6_add_bootstraps_then_commits_iff_added envInvalid 34 128 [104, 105]
    (by refine ⟨?_, ?_, ?_, ?_⟩ <;> decide) (by decide)
    (fun _ s hs => List.eq_of_mem_replicate hs)

/-- C7.  For a 36-unit name field written into a 37-byte buffer, the
decoder produces exactly the units masked to their low seven bits, with
units whose masked value is zero dropped, in the original unit order —
that is, the text truncated to 7-bit ASCII with null units dropped —
followed by the untouched tail of the destination buffer. -/
theorem C7_name_decoding_masks_and_drops (src dst : List Nat)
    (hs : src.length = 36) (hd : dst.length = 37) :
    utf16_write src dst
        = keptChars src ++ dst.drop (keptChars src).length ∧
    keptChars src = (src.map fun u => u % 128).filter (fun c => c ≠ 0) ∧
    ∀ c ∈ keptChars src, c ≠ 0 ∧ c < 128 := by
  have hle : (keptChars src).length ≤ dst.length := by
    have := keptChars_length_le src
    omega
  exact ⟨utf16_write_spec src dst hle, rfl,
    fun c hc => ⟨keptChars_ne_zero src c hc, keptChars_lt_128 src c hc⟩⟩

theorem C7_name_decoding_masks_and_drops_witness :
    utf16_write ([71, 128, 80, 0, 84] ++ List.replicate 31 0)
        (List.replicate 37 0)
        = keptChars ([71, 128, 80, 0, 84] ++ List.replicate 31 0)
          ++ (List.replicate 37 0).drop
              (keptChars ([71, 128, 80, 0, 84] ++ List.replicate 31 0)).length ∧
    keptChars ([71, 128, 80, 0, 84] ++ List.replicate 31 0)
        = (([71, 128, 80, 0, 84] ++ List.replicate 31 0).map
            fun u => u % 128).filter (fun c => c ≠ 0) ∧
    ∀ c ∈ keptChars ([71, 128, 80, 0, 84] ++ List.replicate 31 0),
      c ≠ 0 ∧ c < 128 :=
  C7_name_decoding_masks_and_drops ([71, 128, 80, 0, 84] ++ List.replicate 31 0)
    (List.replicate 37 0) (by decide) (by decide)

/-- C8.  For every add or remove invocation whose confirmation read
yields any value other than newline (10) — including a negative read
error — the whole trace is the prompt alone: the device is never opened
and no commit device write is performed. -/
theorem C8_decline_never_opens_never_writes (env : Env)
    (offset blocks : Nat) (nm : List Nat) (n : Int)
    (h : env.confirmByte ≠ 10) :
    (add_partition env offset blocks nm).trace = [Event.prompt] ∧
    (remove_partition env n).trace = [Event.prompt] ∧
    Event.openDev ∉ (add_partition env offset blocks nm).trace ∧
    Event.openDev ∉ (remove_partition env n).trace ∧
    commitCount (add_partition env offset blocks nm).trace = 0 ∧
    commitCount (remove_partition env n).trace = 0 := by
  have hin := init_declined env h
  refine ⟨?_, ?_, ?_, ?_, ?_, ?_⟩ <;>
    simp [add_partition, remove_partition, hin, commitCount_prompt,
      commitCount_nil]

theorem C8_decline_never_opens_never_writes_witness :
    (add_partition { envBase with confirmByte := 110 } 34 128 [104]).trace
        = [Event.prompt] ∧
    (remove_partition { envBase with confirmByte := 110 } 0).trace
        = [Event.prompt] ∧
    Event.openDev
        ∉ (add_partition { envBase with confirmByte := 110 } 34 128 [104]).trace ∧
    Event.openDev
        ∉ (remove_partition { envBase with confirmByte := 110 } 0).trace ∧
    commitCount
        (add_partition { envBase with confirmByte := 110 } 34 128 [104]).trace
        = 0 ∧
    commitCount (remove_partition { envBase with confirmByte := 110 } 0).trace
        = 0 :=
  C8_decline_never_opens_never_writes { envBase with confirmByte := 110 }
    34 128 [104] 0 (by decide)

/-- C9.  When open succeeds and both geometry queries succeed with the
block-size query returning 0, init still reaches the division of the
raw device byte count by the block size: its trace records a division
whose divisor is 0.  No guard on the block size exists between the
query and the division. -/
theorem C9_division_by_unchecked_blocksize (env : Env) (warn : Bool)
    (h1 : env.openOk = true) (h2 : 0 ≤ env.blocksizeRc)
    (h3 : 0 ≤ env.sizeRc) (hz : env.blocksize = 0)
    (hc : warn = true → env.confirmByte = 10) :
    Event.divideBy 0 ∈ (init env warn).2 := by
  have hb : ¬ env.blocksizeRc < 0 := not_lt.mpr h2
  have hs : ¬ env.sizeRc < 0 := not_lt.mpr h3
  cases warn with
  | false =>
    by_cases hi : env.initRc < 0 <;>
      simp [init, initPromptTrace, h1, hb, hs, hi, hz]
  | true =>
    have hcc : env.confirmByte = 10 := hc rfl
    by_cases hi : env.initRc < 0 <;>
      simp [init, initPromptTrace, h1, hb, hs, hi, hcc, hz]

theorem C9_division_by_unchecked_blocksize_witness :
    Event.divideBy 0 ∈ (init { envBase with blocksize := 0 } false).2 :=
  C9_division_by_unchecked_blocksize { envBase with blocksize := 0 } false
    (by decide) (by decide) (by decide) (by decide)
    (fun hh => absurd hh (by decide))

/-- remove_partition prints its body line, when it prints one, through
the uninitialized stack buffer: every removed-partition line carries a
buffer produced by writing some name over the environment's stack
contents, never over a zeroed buffer. -/
theorem remove_output_shape (env : Env) (n : Int) :
    (remove_partition env n).output = [] ∨
    ∃ p : gpt_partition_t,
      (remove_partition env n).output
        = [Line.removedLine n (utf16_write p.name env.nameBuf),
           Line.commitLine] := by
  rcases hin : init env true with ⟨og, tr⟩
  cases og with
  | none => left; simp [remove_partition, hin]
  | some g =>
    by_cases hge : (PARTITIONS_COUNT : Int) ≤ n
    · left; simp [remove_partition, hin, hge]
    · by_cases hnn : 0 ≤ n
      · cases hp : g.partitions[n.toNat]?.getD none with
        | none => left; simp [remove_partition, hin, hge, hnn, hp]
        | some p =>
          by_cases hrc : (gpt_partition_remove g p.guid).1 = 0
          · right
            exact ⟨p, by
              simp [remove_partition, hin, hge, hnn, hp, hrc, commit]⟩
          · left; simp [remove_partition, hin, hge, hnn, hp, hrc]
      · cases hoe : env.oobEntry with
        | none => left; simp [remove_partition, hin, hge, hnn, hoe]
        | some p =>
          by_cases hrc : (gpt_partition_remove g p.guid).1 = 0
          · right
            exact ⟨p, by
              simp [remove_partition, hin, hge, hnn, hoe, hrc, commit]⟩
          · left; simp [remove_partition, hin, hge, hnn, hoe, hrc]

/-- C10.  The decoder writes only the kept characters — none of them a
null byte — and every buffer position from the first unwritten one on
retains the destination buffer's previous contents: no terminating null
is ever written.  And every removed-partition line remove prints is
rendered into the environment's uninitialized stack buffer contents,
which the code never pre-zeroes. -/
theorem C10_decoder_never_terminates_buffer (env : Env) (n : Int)
    (src dst : List Nat) (hle : (keptChars src).length ≤ dst.length) :
    (utf16_write src dst).drop (keptChars src).length
        = dst.drop (keptChars src).length ∧
    (∀ c ∈ keptChars src, c ≠ 0) ∧
    (∀ l ∈ (remove_partition env n).output, ∀ m buf,
        l = Line.removedLine m buf →
        ∃ s2, buf = utf16_write s2 env.nameBuf) := by
  refine ⟨?_, keptChars_ne_zero src, ?_⟩
  · rw [utf16_write_spec src dst hle]
    exact List.drop_left _ _
  · intro l hl m buf heq
    rcases remove_output_shape env n with hsh | ⟨p, hsh⟩
    · rw [hsh] at hl
      cases hl
    · rw [hsh] at hl
      simp only [List.mem_cons, List.not_mem_nil, or_false] at hl
      rcases hl with rfl | rfl
      · injection heq with h1 h2
        exact ⟨p.name, h2.symm⟩
      · exact Line.noConfusion heq

theorem C10_decoder_never_terminates_buffer_witness :
    (utf16_write ([71, 80, 84] ++ List.replicate 33 0)
        (List.replicate 37 7)).drop
          (keptChars ([71, 80, 84] ++ List.replicate 33 0)).length
        = (List.replicate 37 7).drop
            (keptChars ([71, 80, 84] ++ List.replicate 33 0)).length ∧
    (∀ c ∈ keptChars ([71, 80, 84] ++ List.replicate 33 0), c ≠ 0) ∧
    (∀ l ∈ (remove_partition envOcc 0).output, ∀ m buf,
        l = Line.removedLine m buf →
        ∃ s2, buf = utf16_write s2 envOcc.nameBuf) :=
  C10_decoder_never_terminates_buffer envOcc 0
    ([71, 80, 84] ++ List.replicate 33 0) (List.replicate 37 7) (by decide)

end GptTool
